import Mathlib

/-
Verification of the Evernode auditor (src/auditor.js) against its
natural-language specification.

The file shallowly embeds the parts of the source the claims are about:
the epoch scheduler (the LEDGER event handler), the audit state machine
rollover and verdict logic, the persisted audit table operations, and the
correlation client (AuditorClient).  JavaScript numbers that hold ledger
indexes are modelled as Int (they are integral in the source), strings as
String, and the sqlite rows as a Lean structure; `null` becomes `none`.
-/

namespace EvernodeAuditor

/-- Audit statuses, mirroring the `AuditStatus` object
(src/auditor.js lines 23-32). -/
inductive AuditStatus where
  | created
  | assigned
  | cashed
  | redeemed
  | auditSuccess
  | auditFailed
  | expired
  | failed
deriving DecidableEq, Repr

/-- Statuses the spec calls success states (`AuditSuccess` is the only one). -/
def isSuccessStatus : AuditStatus → Bool
  | .auditSuccess => true
  | _ => false

/-! ## Epoch scheduler (the LEDGER event handler, src/auditor.js lines 88-101) -/

/-- State touched by the LEDGER event handler: the two tracked ledger fields
and, for the embedding, the list of `auditCycle(momentStartIdx)` starts it
has issued, in order.  The source keeps the two fields in
`#lastValidatedLedgerIdx` and `#curMomentStartIdx`; it keeps no record of
which moments already started a cycle. -/
structure SchedState where
  lastValidatedLedgerIdx : Option Int
  curMomentStartIdx : Option Int
  startedCycles : List Int
deriving DecidableEq, Repr

/-- The boundary test `(lastValidatedLedgerIdx - momentBaseIdx) % momentSize === 0`
(src/auditor.js line 91).  JavaScript `%` truncates toward zero and Lean
`Int.emod` is Euclidean, but both are zero exactly when `momentSize` divides
the difference, which is all the source compares against. -/
def isMomentBoundary (momentBaseIdx momentSize n : Int) : Bool :=
  (n - momentBaseIdx) % momentSize == 0

/-- One LEDGER notification carrying `ledger_index = n`
(src/auditor.js lines 88-101): always store `n` into
`lastValidatedLedgerIdx`; when the boundary condition holds, set
`curMomentStartIdx := n` and start `auditCycle n`.  No other condition
guards the start: the handler does not compare `n` with any previously
started moment. -/
def ledgerEventStep (momentBaseIdx momentSize : Int) (st : SchedState) (n : Int) :
    SchedState :=
  if isMomentBoundary momentBaseIdx momentSize n then
    { lastValidatedLedgerIdx := some n
      curMomentStartIdx := some n
      startedCycles := st.startedCycles ++ [n] }
  else
    { st with lastValidatedLedgerIdx := some n }

/-- Run the LEDGER handler over a whole stream of notifications, starting
from the fresh state. -/
def runScheduler (momentBaseIdx momentSize : Int) (events : List Int) : SchedState :=
  events.foldl (ledgerEventStep momentBaseIdx momentSize)
    { lastValidatedLedgerIdx := none, curMomentStartIdx := none, startedCycles := [] }

/-- The cycles started over a stream are exactly the notifications that
satisfy the boundary test, in delivery order. -/
theorem foldl_ledgerEventStep_startedCycles (b s : Int) (events : List Int)
    (st : SchedState) :
    (events.foldl (ledgerEventStep b s) st).startedCycles
      = st.startedCycles ++ events.filter (isMomentBoundary b s) := by
  induction events generalizing st with
  | nil => simp
  | cons n rest ih =>
    simp only [List.foldl_cons, List.filter_cons]
    by_cases hb : isMomentBoundary b s n
    · rw [ih]
      simp [ledgerEventStep, hb]
    · rw [ih]
      simp [ledgerEventStep, hb]

/-- Specialisation to a run from the fresh state. -/
theorem runScheduler_startedCycles (b s : Int) (events : List Int) :
    (runScheduler b s events).startedCycles
      = events.filter (isMomentBoundary b s) := by
  unfold runScheduler
  rw [foldl_ledgerEventStep_startedCycles]
  rfl

/-- C1: the claim is false on the code.  With `momentBaseIdx = 0`,
`momentSize = 72`, the non-decreasing stream `[72, 72]` (a duplicate
delivery of the boundary sequence 72) makes the handler start two audit
cycles for the single epoch 72: the source tracks no last-started moment,
so re-checking the modulo condition on an already-seen boundary starts a
second run. -/
theorem c1_counterexample :
    List.Sorted (· ≤ ·) ([72, 72] : List Int)
      ∧ (runScheduler 0 72 [72, 72]).startedCycles.count 72 = 2 := by
  constructor
  · decide
  · rfl

/-- C1 (amended): when every notification satisfying the boundary condition
is delivered at most once (each epoch boundary crossed at most once), the
scheduler starts at most one audit cycle per `epochId`. -/
theorem c1_amended (momentBaseIdx momentSize : Int) (events : List Int)
    (h : (events.filter (isMomentBoundary momentBaseIdx momentSize)).Nodup)
    (m : Int) :
    (runScheduler momentBaseIdx momentSize events).startedCycles.count m ≤ 1 := by
  rw [runScheduler_startedCycles]
  exact List.nodup_iff_count_le_one.mp h m

/-- C1 (amended) witness: on the stream `[71, 72]` (each boundary delivered
once) at most one cycle starts for epoch 72. -/
theorem c1_amended_witness :
    (runScheduler 0 72 [71, 72]).startedCycles.count 72 ≤ 1 :=
  c1_amended 0 72 [71, 72] (by decide) 72

/-! ## Draft rejection reasons and the draft catch handler
(src/auditor.js lines 191-201, 224-230) -/

/-- A value thrown to / used to reject a draft.  The source either throws an
object literal carrying a `status` field set to an `AuditStatus` value and
an error message, or lets an arbitrary collaborator exception propagate,
which carries no `status` field. -/
inductive RejectReason where
  | withStatus (s : AuditStatus)
  | plainError
deriving DecidableEq, Repr

/-- Status persisted by a draft catch handler
(`if (e.status && e.status === AuditStatus.EXPIRED)` then persist `Expired`
else persist `Failed`, src/auditor.js lines 197-200; the same test appears in
`auditCycle` catch, lines 226-229). -/
def draftCatchStatus : RejectReason → AuditStatus
  | .withStatus s => if s = .expired then .expired else .failed
  | .plainError => .failed

/-! ## Epoch rollover (`auditCycle` expiry prologue, src/auditor.js lines 206-233) -/

/-- The in-memory `#ongoingAudit` value: its moment, whether it is still
draft-only (`isDraft`), and the keys of its open drafts map
(src/auditor.js lines 106-112).  The completion callbacks are modelled by
the outcome values the rollover produces. -/
structure OngoingAudit where
  momentStartIdx : Int
  isDraft : Bool
  drafts : List String
deriving DecidableEq, Repr

/-- What the rollover did to the parent `#ongoingAudit` own completion
handle. -/
inductive ParentOutcome where
  | rejectedExpired
  | resolved
  | untouched
deriving DecidableEq, Repr

/-- Result of `auditCycle` expiry prologue: the rejection delivered to each
open draft handle, the action on the parent handle, and the surviving
`#ongoingAudit`. -/
structure RolloverResult where
  rejections : List (String × RejectReason)
  parent : ParentOutcome
  ongoing : Option OngoingAudit
deriving DecidableEq, Repr

/-- The expiry prologue of `auditCycle(momentStartIdx)`
(src/auditor.js lines 210-219): when an `#ongoingAudit` exists and its
moment is older than the new one, reject every open draft handle with an
object literal whose `status` field is `AuditStatus.EXPIRED`, then reject
the parent handle with
the same reason when it is still draft-only, resolve it otherwise, and
clear `#ongoingAudit`. -/
def rolloverPrologue (og : Option OngoingAudit) (momentStartIdx : Int) :
    RolloverResult :=
  match og with
  | some o =>
    if o.momentStartIdx < momentStartIdx then
      { rejections := o.drafts.map fun k => (k, RejectReason.withStatus .expired)
        parent := if o.isDraft then .rejectedExpired else .resolved
        ongoing := none }
    else
      { rejections := [], parent := .untouched, ongoing := og }
  | none => { rejections := [], parent := .untouched, ongoing := og }

/-- C2: when a new epoch boundary fires with a different moment (under
non-decreasing delivery the ongoing moment is at most the new one, so
"different" means strictly older), every open draft handle is rejected
with the `Expired` outcome, the status the draft catch handler then
persists is `Expired` — never `Failed` and never a success state — and the
parent `#ongoingAudit` handle is rejected when still draft-only and
resolved when active. -/
theorem c2_rollover_expires_open_drafts (o : OngoingAudit) (momentStartIdx : Int)
    (hle : o.momentStartIdx ≤ momentStartIdx)
    (hne : o.momentStartIdx ≠ momentStartIdx) :
    (∀ k ∈ o.drafts,
      (k, RejectReason.withStatus .expired)
          ∈ (rolloverPrologue (some o) momentStartIdx).rejections) ∧
    (∀ p ∈ (rolloverPrologue (some o) momentStartIdx).rejections,
      p.2 = RejectReason.withStatus .expired ∧
      draftCatchStatus p.2 = .expired ∧
      draftCatchStatus p.2 ≠ .failed ∧
      isSuccessStatus (draftCatchStatus p.2) = false) ∧
    (rolloverPrologue (some o) momentStartIdx).parent
        = (if o.isDraft then .rejectedExpired else .resolved) ∧
    (rolloverPrologue (some o) momentStartIdx).ongoing = none := by
  have hlt : o.momentStartIdx < momentStartIdx := lt_of_le_of_ne hle hne
  have heq : rolloverPrologue (some o) momentStartIdx =
      { rejections := o.drafts.map fun k => (k, RejectReason.withStatus .expired)
        parent := if o.isDraft then .rejectedExpired else .resolved
        ongoing := none } := by
    simp only [rolloverPrologue, if_pos hlt]
  rw [heq]
  refine ⟨?_, ?_, rfl, rfl⟩
  · intro k hk
    exact List.mem_map_of_mem _ hk
  · intro p hp
    obtain ⟨k, _, hk⟩ := List.mem_map.mp hp
    subst hk
    refine ⟨rfl, ?_, ?_, ?_⟩
    · show draftCatchStatus (RejectReason.withStatus .expired) = .expired
      decide
    · show draftCatchStatus (RejectReason.withStatus .expired) ≠ .failed
      decide
    · show isSuccessStatus (draftCatchStatus (RejectReason.withStatus .expired)) = false
      decide

/-- C2 witness: a concrete still-active ongoing audit of moment 72 with one
open draft, rolled over at moment 144. -/
theorem c2_rollover_expires_open_drafts_witness :
    (∀ k ∈ (OngoingAudit.mk 72 false ["72ABC"]).drafts,
      (k, RejectReason.withStatus .expired)
          ∈ (rolloverPrologue (some (OngoingAudit.mk 72 false ["72ABC"])) 144).rejections) ∧
    (∀ p ∈ (rolloverPrologue (some (OngoingAudit.mk 72 false ["72ABC"])) 144).rejections,
      p.2 = RejectReason.withStatus .expired ∧
      draftCatchStatus p.2 = .expired ∧
      draftCatchStatus p.2 ≠ .failed ∧
      isSuccessStatus (draftCatchStatus p.2) = false) ∧
    (rolloverPrologue (some (OngoingAudit.mk 72 false ["72ABC"])) 144).parent
        = (if (OngoingAudit.mk 72 false ["72ABC"]).isDraft
            then .rejectedExpired else .resolved) ∧
    (rolloverPrologue (some (OngoingAudit.mk 72 false ["72ABC"])) 144).ongoing = none :=
  c2_rollover_expires_open_drafts (OngoingAudit.mk 72 false ["72ABC"]) 144
    (by decide) (by decide)

/-! ## The persisted audit table (`audit_req`, src/auditor.js lines 312-366)

The sqlite engine itself lives in src/lib/sqlite-handler, which ships
outside src/; its operations are modelled from the spec description of
the persistent store collaborator (insert appends a row with a
store-assigned unique id; update-by-predicate patches every matching row;
select-by-predicate filters rows; a NULL column matches a NULL predicate
value). -/

/-- One row of the `audit_req` table (schema at src/auditor.js lines 312-321). -/
structure AuditRecord where
  id : Int
  timestamp : Int
  moment_start_idx : Int
  hosting_token : Option String
  status : AuditStatus
deriving DecidableEq, Repr

/-- Statuses the recovery query treats as non-terminal
(`getDraftAuditRecords`, src/auditor.js line 324: status in
Created, Assigned, Cashed, Redeemed). -/
def isNonTerminal : AuditStatus → Bool
  | .created => true
  | .assigned => true
  | .cashed => true
  | .redeemed => true
  | _ => false

/-- Modelled from the spec: the store select-by-predicate; the source
delegates to `db.getValuesIn(table, status-in-list)`
(src/auditor.js line 324). -/
def getDraftAuditRecords (db : List AuditRecord) : List AuditRecord :=
  db.filter fun a => isNonTerminal a.status

/-- Modelled from the spec: the store select-by-predicate; the source
delegates to `db.getValues(table, moment_start_idx)` (src/auditor.js
line 328). -/
def getAuditRecords (db : List AuditRecord) (momentStartIdx : Int) :
    List AuditRecord :=
  db.filter fun a => a.moment_start_idx = momentStartIdx

/-- The current-moment computation of `initMomentInfo`
(src/auditor.js lines 294-296):
`momentBaseIdx + floor((lastIdx - momentBaseIdx) / momentSize) * momentSize`.
`Int.fdiv` is floor division, matching JavaScript `Math.floor` of the exact
quotient. -/
def computeCurMomentStartIdx (lastIdx momentBaseIdx momentSize : Int) : Int :=
  momentBaseIdx + (lastIdx - momentBaseIdx).fdiv momentSize * momentSize

/-- The ids `initMomentInfo` passes to `updateAuditStatusByIds`
(src/auditor.js lines 300-308): ids of non-terminal records whose
`moment_start_idx <= #curMomentStartIdx`. -/
def expiredDraftIds (db : List AuditRecord) (lastIdx momentBaseIdx momentSize : Int) :
    List Int :=
  let cur := computeCurMomentStartIdx lastIdx momentBaseIdx momentSize
  ((getDraftAuditRecords db).filter fun a => a.moment_start_idx ≤ cur).map (·.id)

/-- The table after `initMomentInfo` recovery cleanup: every row whose id
is among `expiredDraftIds` has its status set to `Expired`
(`updateAuditStatusByIds`, src/auditor.js lines 307 and 364-366). -/
def initMomentInfoExpire (db : List AuditRecord)
    (lastIdx momentBaseIdx momentSize : Int) : List AuditRecord :=
  let ids := expiredDraftIds db lastIdx momentBaseIdx momentSize
  db.map fun r => if r.id ∈ ids then { r with status := AuditStatus.expired } else r

/-- C3: the claim is false on the code.  With `momentBaseIdx = 0`,
`momentSize = 72` and latest ledger sequence 75 the current epoch is 72,
and a non-terminal record whose `epochId` EQUALS the current epoch is
marked `Expired` by the recovery cleanup: the source filter uses
`a.moment_start_idx <= this.#curMomentStartIdx` (line 304), not a strict
comparison. -/
theorem c3_counterexample :
    computeCurMomentStartIdx 75 0 72 = 72 ∧
    initMomentInfoExpire [AuditRecord.mk 1 0 72 none .created] 75 0 72
      = [AuditRecord.mk 1 0 72 none .expired] := by
  constructor
  · decide
  · decide

/-- C3 (amended): at start-up recovery a non-terminal record is marked
`Expired` if and only if its `epochId` is less than OR EQUAL TO the
computed current epoch (assuming the store-assigned ids are unique, as the
primary-key schema guarantees). -/
theorem c3_amended (db : List AuditRecord) (lastIdx momentBaseIdx momentSize : Int)
    (hids : (db.map (·.id)).Nodup)
    (r : AuditRecord) (hr : r ∈ db) (hnt : isNonTerminal r.status = true) :
    (r.id ∈ expiredDraftIds db lastIdx momentBaseIdx momentSize
        ↔ r.moment_start_idx ≤ computeCurMomentStartIdx lastIdx momentBaseIdx momentSize) ∧
    (if r.moment_start_idx ≤ computeCurMomentStartIdx lastIdx momentBaseIdx momentSize
        then { r with status := AuditStatus.expired } else r)
      ∈ initMomentInfoExpire db lastIdx momentBaseIdx momentSize := by
  have hmem :
      r.id ∈ expiredDraftIds db lastIdx momentBaseIdx momentSize
        ↔ r.moment_start_idx ≤ computeCurMomentStartIdx lastIdx momentBaseIdx momentSize := by
    constructor
    · intro hin
      obtain ⟨a, ha, haid⟩ := List.mem_map.mp hin
      have ha2 := List.mem_filter.mp ha
      have ha3 := List.mem_filter.mp ha2.1
      have : a = r := List.inj_on_of_nodup_map hids ha3.1 hr haid
      subst this
      exact of_decide_eq_true ha2.2
    · intro hle
      refine List.mem_map.mpr ⟨r, ?_, rfl⟩
      refine List.mem_filter.mpr ⟨?_, decide_eq_true hle⟩
      exact List.mem_filter.mpr ⟨hr, hnt⟩
  refine ⟨hmem, ?_⟩
  by_cases hle :
      r.moment_start_idx ≤ computeCurMomentStartIdx lastIdx momentBaseIdx momentSize
  · rw [if_pos hle]
    have : ({ r with status := AuditStatus.expired } : AuditRecord)
        = (fun x : AuditRecord =>
            if x.id ∈ expiredDraftIds db lastIdx momentBaseIdx momentSize
            then { x with status := AuditStatus.expired } else x) r := by
      show ({ r with status := AuditStatus.expired } : AuditRecord)
        = if r.id ∈ expiredDraftIds db lastIdx momentBaseIdx momentSize
            then { r with status := AuditStatus.expired } else r
      rw [if_pos (hmem.mpr hle)]
    rw [this]
    exact List.mem_map_of_mem _ hr
  · rw [if_neg hle]
    have : r = (fun x : AuditRecord =>
        if x.id ∈ expiredDraftIds db lastIdx momentBaseIdx momentSize
        then { x with status := AuditStatus.expired } else x) r := by
      show r = if r.id ∈ expiredDraftIds db lastIdx momentBaseIdx momentSize
          then { r with status := AuditStatus.expired } else r
      rw [if_neg fun hc => hle (hmem.mp hc)]
    rw [this]
    exact List.mem_map_of_mem _ hr

/-- C3 (amended) witness: a concrete store with one stale Created record
(epoch 0) and one current-epoch Assigned record (epoch 72); both satisfy
the less-or-equal filter and both end up Expired. -/
theorem c3_amended_witness :
    ((AuditRecord.mk 2 0 72 (some "ABC") .assigned).id
        ∈ expiredDraftIds
            [AuditRecord.mk 1 0 0 none .created,
             AuditRecord.mk 2 0 72 (some "ABC") .assigned] 75 0 72
      ↔ (AuditRecord.mk 2 0 72 (some "ABC") .assigned).moment_start_idx
          ≤ computeCurMomentStartIdx 75 0 72) ∧
    (if (AuditRecord.mk 2 0 72 (some "ABC") .assigned).moment_start_idx
        ≤ computeCurMomentStartIdx 75 0 72
      then { AuditRecord.mk 2 0 72 (some "ABC") .assigned with
              status := AuditStatus.expired }
      else AuditRecord.mk 2 0 72 (some "ABC") .assigned)
      ∈ initMomentInfoExpire
          [AuditRecord.mk 1 0 0 none .created,
           AuditRecord.mk 2 0 72 (some "ABC") .assigned] 75 0 72 :=
  c3_amended
    [AuditRecord.mk 1 0 0 none .created,
     AuditRecord.mk 2 0 72 (some "ABC") .assigned] 75 0 72
    (by decide) (AuditRecord.mk 2 0 72 (some "ABC") .assigned)
    (by decide) (by decide)

/-! ## The assignment handler (`updateAuditAssigned`, src/auditor.js lines 339-356) -/

/-- A JavaScript runtime error the embedding surfaces explicitly: reading a
property of `undefined` (here `auditRecords[0].timestamp` when the record
list is empty) throws a TypeError. -/
inductive JsError where
  | typeErrorUndefinedRecord
deriving DecidableEq, Repr

/-- Modelled from the spec: the store assigns a fresh unique id on insert
(the `id` primary-key column; sqlite-handler ships outside src/). -/
def nextId (db : List AuditRecord) : Int :=
  (db.map (·.id)).foldl max 0 + 1

/-- The assignment-event handler (src/auditor.js lines 339-356): fetch the
epoch records; when one with status `Created` exists, patch every row
matching its (moment_start_idx, hosting_token, status) with the lease token
and status `Assigned` (`db.updateValue`); otherwise insert a fresh row
copying `timestamp` and `moment_start_idx` from `auditRecords[0]` — an
access that throws when the record list is empty. -/
def updateAuditAssigned (db : List AuditRecord) (momentStartIdx : Int)
    (hostingToken : String) : Except JsError (List AuditRecord) :=
  match (getAuditRecords db momentStartIdx).find?
      (fun a => a.status = AuditStatus.created) with
  | some createdRecord =>
    .ok (db.map fun r =>
      if r.moment_start_idx = createdRecord.moment_start_idx
          ∧ r.hosting_token = createdRecord.hosting_token
          ∧ r.status = createdRecord.status
      then { r with hosting_token := some hostingToken, status := .assigned }
      else r)
  | none =>
    match getAuditRecords db momentStartIdx with
    | [] => .error .typeErrorUndefinedRecord
    | r0 :: _ =>
      .ok (db ++ [{ id := nextId db
                    timestamp := r0.timestamp
                    moment_start_idx := r0.moment_start_idx
                    hosting_token := some hostingToken
                    status := .assigned }])

/-- C8: the claim is false on the code.  When the store holds no record at
all for the event epoch, the handler does not complete: it reads
`auditRecords[0].timestamp` off an empty result set and throws a
TypeError instead of inserting the defensive fresh record. -/
theorem c8_counterexample :
    updateAuditAssigned [] 72 "ABC" = .error .typeErrorUndefinedRecord := by
  rfl

/-- C8 (amended): whenever the store holds at least one record for the
event epoch, the handler completes without an exception, and the
resulting table contains a record of that epoch carrying the lease token
with status `Assigned` (the patched `Created` record when one exists, a
fresh insert otherwise). -/
theorem c8_amended (db : List AuditRecord) (momentStartIdx : Int) (tok : String)
    (h : getAuditRecords db momentStartIdx ≠ []) :
    ∃ db', updateAuditAssigned db momentStartIdx tok = .ok db' ∧
      ∃ r ∈ db', r.moment_start_idx = momentStartIdx ∧
        r.hosting_token = some tok ∧ r.status = .assigned := by
  unfold updateAuditAssigned
  cases hfind : (getAuditRecords db momentStartIdx).find?
      (fun a => a.status = AuditStatus.created) with
  | some c =>
    have hcmem : c ∈ getAuditRecords db momentStartIdx :=
      List.mem_of_find?_eq_some hfind
    have hcdb : c ∈ db := (List.mem_filter.mp hcmem).1
    have hcidx : c.moment_start_idx = momentStartIdx :=
      of_decide_eq_true (List.mem_filter.mp hcmem).2
    refine ⟨_, rfl, ?_⟩
    refine ⟨{ c with hosting_token := some tok, status := .assigned }, ?_, hcidx, rfl, rfl⟩
    have : ({ c with hosting_token := some tok, status := .assigned } : AuditRecord)
        = (fun r : AuditRecord =>
            if r.moment_start_idx = c.moment_start_idx
                ∧ r.hosting_token = c.hosting_token
                ∧ r.status = c.status
            then { r with hosting_token := some tok, status := .assigned }
            else r) c := by
      show ({ c with hosting_token := some tok, status := .assigned } : AuditRecord)
        = if c.moment_start_idx = c.moment_start_idx
              ∧ c.hosting_token = c.hosting_token
              ∧ c.status = c.status
          then { c with hosting_token := some tok, status := .assigned }
          else c
      rw [if_pos ⟨rfl, rfl, rfl⟩]
    rw [this]
    exact List.mem_map_of_mem _ hcdb
  | none =>
    cases hrec : getAuditRecords db momentStartIdx with
    | nil => exact absurd hrec h
    | cons r0 rest =>
      have hr0 : r0 ∈ getAuditRecords db momentStartIdx := by
        rw [hrec]; exact List.mem_cons_self r0 rest
      have hr0idx : r0.moment_start_idx = momentStartIdx :=
        of_decide_eq_true (List.mem_filter.mp hr0).2
      refine ⟨_, rfl, ?_⟩
      refine ⟨{ id := nextId db, timestamp := r0.timestamp
                moment_start_idx := r0.moment_start_idx
                hosting_token := some tok, status := .assigned }, ?_, hr0idx, rfl, rfl⟩
      exact List.mem_append_right _ (List.mem_singleton.mpr rfl)

/-- C8 (amended) witness: a store holding the epoch `Created` record;
the handler succeeds and the token lands on an `Assigned` record. -/
theorem c8_amended_witness :
    ∃ db', updateAuditAssigned [AuditRecord.mk 1 5 72 none .created] 72 "ABC" = .ok db' ∧
      ∃ r ∈ db', r.moment_start_idx = 72 ∧
        r.hosting_token = some "ABC" ∧ r.status = .assigned :=
  c8_amended [AuditRecord.mk 1 5 72 none .created] 72 "ABC" (by decide)

/-! ## Instance verification (`auditInstance`, src/auditor.js lines 239-286,
and the verdict tail of `#handleAudit`, lines 170-201) -/

/-- Environment a single `auditInstance` call runs against: the cached hook
config `momentSize`, the boolean answers of the collaborator calls, and
the value `#checkMomentValidity` returns at each of the four checkpoints
(after connect, after the liveness check, after the upload, and the check
in `#handleAudit` after `auditInstance` returns). -/
structure InstanceEnv where
  momentSize : Nat
  connectSuccess : Bool
  bootstrapRunning : Bool
  uploadSuccess : Bool
  auditLogicSuccess : Bool
  validAtConnect : Bool
  validAtStatus : Bool
  validAtUpload : Bool
  validAfterAudit : Bool
deriving DecidableEq, Repr

/-- The verification steps `auditInstance` can attempt, in source order:
`client.connect`, `client.checkStatus`, `client.uploadContract`, and the
pluggable `this.audit` logic. -/
inductive VerifyStep where
  | connect
  | checkStatus
  | uploadContract
  | customAudit
deriving DecidableEq, Repr

/-- The redeem deadline `ledgerTimeTook >= this.evernodeHookConf.momentSize / 2`
(src/auditor.js lines 241-242).  JavaScript divides exactly (floats), so the
comparison is `momentSize ≤ 2 * ledgerTimeTook` over the integers. -/
def redeemTooSlow (ledgerTimeTook momentSize : Nat) : Bool :=
  momentSize ≤ 2 * ledgerTimeTook

/-- `auditInstance` (src/auditor.js lines 239-286): fail immediately when the
redeem deadline was missed, otherwise walk connect / liveness / upload /
custom-audit, re-checking moment validity after each collaborator call and
throwing the `Expired`-carrying condition on invalidity; a `false`
collaborator answer is a graceful `false` verdict.  The second component
records which steps were attempted, in order. -/
def auditInstance (env : InstanceEnv) (ledgerTimeTook : Nat) :
    Except RejectReason Bool × List VerifyStep :=
  if redeemTooSlow ledgerTimeTook env.momentSize then
    (.ok false, [])
  else if env.validAtConnect = false then
    (.error (.withStatus .expired), [.connect])
  else if env.connectSuccess = false then
    (.ok false, [.connect])
  else if env.validAtStatus = false then
    (.error (.withStatus .expired), [.connect, .checkStatus])
  else if env.bootstrapRunning = false then
    (.ok false, [.connect, .checkStatus])
  else if env.validAtUpload = false then
    (.error (.withStatus .expired), [.connect, .checkStatus, .uploadContract])
  else if env.uploadSuccess = false then
    (.ok false, [.connect, .checkStatus, .uploadContract])
  else
    (.ok env.auditLogicSuccess, [.connect, .checkStatus, .uploadContract, .customAudit])

/-- The verdict tail of `#handleAudit` (src/auditor.js lines 170-201): a
throw out of `auditInstance` lands in the catch handler (persisting per
`draftCatchStatus`); otherwise the moment is re-checked (invalidity throws
the `Expired` condition, likewise caught), then `auditRes` maps to
`AuditSuccess` / `AuditFailed`. -/
def postRedeemVerdict (env : InstanceEnv) (ledgerTimeTook : Nat) :
    AuditStatus × List VerifyStep :=
  match auditInstance env ledgerTimeTook with
  | (.error e, steps) => (draftCatchStatus e, steps)
  | (.ok res, steps) =>
    if env.validAfterAudit = false then
      (draftCatchStatus (.withStatus .expired), steps)
    else if res then (.auditSuccess, steps)
    else (.auditFailed, steps)

/-- C4: when the redeem call elapsed ledger count reaches half the moment
size, the audit terminal status is `AuditFailed` and no verification step
is attempted (provided the moment has not rolled over, in which case C2
expiry applies instead); when the elapsed count is strictly below half the
moment size, verification proceeds, starting with the connect step. -/
theorem c4_redeem_deadline (env : InstanceEnv) (ledgerTimeTook : Nat) :
    (env.validAfterAudit = true → redeemTooSlow ledgerTimeTook env.momentSize = true →
      postRedeemVerdict env ledgerTimeTook = (.auditFailed, [])) ∧
    (redeemTooSlow ledgerTimeTook env.momentSize = false →
      ∃ rest, (auditInstance env ledgerTimeTook).2 = .connect :: rest) := by
  constructor
  · intro hvalid hslow
    have hai : auditInstance env ledgerTimeTook = (.ok false, []) := by
      unfold auditInstance
      rw [hslow]
      simp
    unfold postRedeemVerdict
    rw [hai]
    simp [hvalid]
  · intro hfast
    unfold auditInstance
    rw [hfast]
    simp only [Bool.false_eq_true, if_false]
    by_cases h1 : env.validAtConnect = false
    · rw [if_pos h1]; exact ⟨[], rfl⟩
    · rw [if_neg h1]
      by_cases h2 : env.connectSuccess = false
      · rw [if_pos h2]; exact ⟨[], rfl⟩
      · rw [if_neg h2]
        by_cases h3 : env.validAtStatus = false
        · rw [if_pos h3]; exact ⟨[.checkStatus], rfl⟩
        · rw [if_neg h3]
          by_cases h4 : env.bootstrapRunning = false
          · rw [if_pos h4]; exact ⟨[.checkStatus], rfl⟩
          · rw [if_neg h4]
            by_cases h5 : env.validAtUpload = false
            · rw [if_pos h5]; exact ⟨[.checkStatus, .uploadContract], rfl⟩
            · rw [if_neg h5]
              by_cases h6 : env.uploadSuccess = false
              · rw [if_pos h6]; exact ⟨[.checkStatus, .uploadContract], rfl⟩
              · rw [if_neg h6]
                exact ⟨[.checkStatus, .uploadContract, .customAudit], rfl⟩

/-- C4 witness: with `momentSize = 72`, a redeem of 40 ticks (at least 36)
yields `AuditFailed` with no step attempted, and a redeem of 10 ticks is
below the deadline so the connect step runs.  (Environment: every
collaborator call succeeds and every validity check passes.) -/
theorem c4_redeem_deadline_witness :
    postRedeemVerdict (InstanceEnv.mk 72 true true true true true true true true) 40
        = (.auditFailed, []) ∧
    ∃ rest,
      (auditInstance (InstanceEnv.mk 72 true true true true true true true true) 10).2
        = .connect :: rest :=
  ⟨(c4_redeem_deadline (InstanceEnv.mk 72 true true true true true true true true) 40).1
      rfl (by decide),
   (c4_redeem_deadline (InstanceEnv.mk 72 true true true true true true true true) 10).2
      (by decide)⟩

/-! ## The drafts map key (src/auditor.js lines 139, 188, 196) -/

/-- The key used for the `#ongoingAudit.drafts` map: the template literal
concatenating the moment start index and the hosting token with no
separator. -/
def draftKey (momentStartIdx : Int) (currency : String) : String :=
  toString momentStartIdx ++ currency

/-- C10: the claim is false on the code.  The separatorless concatenation is
not injective on pairs: the distinct pairs (72, "3AB") and (723, "AB")
share the key "723AB". -/
theorem c10_counterexample :
    draftKey 72 "3AB" = draftKey 723 "AB" ∧
    ¬((72 : Int) = 723 ∧ "3AB" = "AB") := by
  constructor
  · rfl
  · decide

/-- C10 (amended): within one `#ongoingAudit` every draft shares the same
`momentStartIdx`, and for a fixed moment the key is injective in the
hosting token, so completing or deleting one draft of the ongoing moment
never touches the map entry of a sibling with a different token. -/
theorem c10_amended (momentStartIdx : Int) (t1 t2 : String) (h : t1 ≠ t2) :
    draftKey momentStartIdx t1 ≠ draftKey momentStartIdx t2 := by
  intro hk
  apply h
  have hdata := congrArg String.data hk
  simp only [draftKey, String.data_append] at hdata
  have hcancel := List.append_cancel_left hdata
  cases t1
  cases t2
  simp only at hcancel
  exact congrArg String.mk hcancel

/-- C10 (amended) witness: within moment 72, the tokens "ABC" and "ABD"
get distinct draft keys. -/
theorem c10_amended_witness : draftKey 72 "ABC" ≠ draftKey 72 "ABD" :=
  c10_amended 72 "ABC" "ABD" (by decide)

/-! ## Correlation client (class AuditorClient in src/auditor.js)

The client keeps two resolver maps (`rr` for read requests, `ci` for
contract inputs) keyed by a fresh uuid per submission; bare identifiers in
the method bodies (`resolvers`, `promises`, `hpc`) denote the instance
fields set up in the constructor and in `audit`. -/

/-- JavaScript truthiness of the reply optional `ts` field (the guard
`if (ts && ...)` in `handleOutput`): present and non-zero. -/
def tsTruthy : Option Nat → Bool
  | some v => v != 0
  | none => false

/-- The success test `handleOutput` applies to a matched reply
(src/auditor.js `handleOutput`): the reply carries a truthy `ts` AND the
received output equals the expected output. -/
def outputMatches (expectedOutput receivedOutput : String) (ts : Option Nat) : Bool :=
  tsTruthy ts && receivedOutput == expectedOutput

/-- One entry of a resolver map: the test expected output, the `success`
flag (initially false), how the promise was settled (`none` while pending,
`some b` once `resolve(b)` ran), and `outTime`. -/
structure ResolverEntry where
  expectedOutput : String
  success : Bool
  resolvedWith : Option Bool
  outTime : Option Nat
deriving DecidableEq, Repr

/-- A parsed incoming output event: `JSON.parse(output)` yields `id`,
`output` and the optional `ts`. -/
structure OutputMsg where
  id : String
  output : String
  ts : Option Nat
deriving DecidableEq, Repr

/-- The mutation `handleOutput` performs on the matched resolver entry: set
`outTime`, settle the promise with the match result (a promise settles only
once), and raise `success` exactly when the match succeeded. -/
def applyOutput (r : ResolverEntry) (msg : OutputMsg) (now : Nat) : ResolverEntry :=
  let b := outputMatches r.expectedOutput msg.output msg.ts
  { r with
    outTime := some now
    resolvedWith := match r.resolvedWith with
      | some v => some v
      | none => some b
    success := r.success || b }

/-- `handleOutput` (src/auditor.js, AuditorClient): look the reply `id` up
in the resolver map; an unmatched id is logged and dropped, leaving the map
untouched; a matched id gets `applyOutput`. -/
def handleOutput (resolvers : List (String × ResolverEntry)) (msg : OutputMsg)
    (now : Nat) : List (String × ResolverEntry) :=
  match resolvers.lookup msg.id with
  | none => resolvers
  | some _ =>
    resolvers.map fun kv =>
      if msg.id == kv.1 then (kv.1, applyOutput kv.2 msg now) else kv

/-- Looking up the updated key after `handleOutput` map step returns the
updated entry. -/
theorem lookup_map_update (key : String) (f : ResolverEntry → ResolverEntry)
    (l : List (String × ResolverEntry)) (r : ResolverEntry)
    (h : l.lookup key = some r) :
    (l.map fun kv => if key == kv.1 then (kv.1, f kv.2) else kv).lookup key
      = some (f r) := by
  induction l with
  | nil => simp at h
  | cons kv rest ih =>
    obtain ⟨k, v⟩ := kv
    rw [List.lookup_cons] at h
    cases hk : (key == k) with
    | true =>
      rw [hk] at h
      have hv : v = r := Option.some.inj h
      subst hv
      simp only [List.map_cons]
      have hif : (if key == (k, v).1 then ((k, v).1, f (k, v).2) else (k, v))
          = (k, f v) := by
        simp [hk]
      rw [hif, List.lookup_cons, hk]
    | false =>
      rw [hk] at h
      simp only [List.map_cons]
      have hif : (if key == (k, v).1 then ((k, v).1, f (k, v).2) else (k, v))
          = (k, v) := by
        simp [hk]
      rw [hif, List.lookup_cons, hk]
      exact ih h

/-- C9: a reply whose `id` matches no pending resolver leaves the resolver
map exactly as it was — nothing is altered, no error is raised. -/
theorem c9_unmatched_reply_dropped (resolvers : List (String × ResolverEntry))
    (msg : OutputMsg) (now : Nat) (h : resolvers.lookup msg.id = none) :
    handleOutput resolvers msg now = resolvers := by
  unfold handleOutput
  rw [h]

/-- C9 witness: a reply with id "2" against a map pending only id "1". -/
theorem c9_unmatched_reply_dropped_witness :
    handleOutput [("1", ResolverEntry.mk "E" false none none)]
        (OutputMsg.mk "2" "E" (some 3)) 7
      = [("1", ResolverEntry.mk "E" false none none)] :=
  c9_unmatched_reply_dropped [("1", ResolverEntry.mk "E" false none none)]
    (OutputMsg.mk "2" "E" (some 3)) 7 (by rfl)

/-- C6: the claim is false on the code.  A matched reply whose received
output EQUALS the expected output but which carries no `ts` field resolves
the request as failure: besides output equality, `handleOutput` also
requires a truthy `ts` (`if (ts && (receivedOutput === actualOutput))`),
so another condition on the reply payload does affect the outcome. -/
theorem c6_counterexample :
    (OutputMsg.mk "1" "E" none).output
        = (ResolverEntry.mk "E" false none none).expectedOutput ∧
    handleOutput [("1", ResolverEntry.mk "E" false none none)]
        (OutputMsg.mk "1" "E" none) 5
      = [("1", ResolverEntry.mk "E" false (some false) (some 5))] := by
  constructor
  · rfl
  · rfl

/-- C6 (amended): a matched, still-pending request is resolved with success
exactly when the reply carries a truthy `ts` and the received output equals
the expected output; equal outputs with the `ts` condition violated resolve
as failure, and no further condition enters. -/
theorem c6_matched_reply_resolution (resolvers : List (String × ResolverEntry))
    (msg : OutputMsg) (now : Nat) (r : ResolverEntry)
    (h : resolvers.lookup msg.id = some r) (hpending : r.resolvedWith = none) :
    ∃ r', (handleOutput resolvers msg now).lookup msg.id = some r' ∧
      r'.resolvedWith
          = some (outputMatches r.expectedOutput msg.output msg.ts) ∧
      outputMatches r.expectedOutput msg.output msg.ts
          = (tsTruthy msg.ts && msg.output == r.expectedOutput) := by
  unfold handleOutput
  rw [h]
  exact ⟨applyOutput r msg now,
    lookup_map_update msg.id (fun x => applyOutput x msg now) resolvers r h,
    by simp [applyOutput, hpending], rfl⟩

/-- C6 (amended) witness: a pending request expecting "E" receives a reply
"E" with `ts = 3`; it resolves with the match result true. -/
theorem c6_matched_reply_resolution_witness :
    ∃ r', (handleOutput [("1", ResolverEntry.mk "E" false none none)]
            (OutputMsg.mk "1" "E" (some 3)) 5).lookup "1" = some r' ∧
      r'.resolvedWith
          = some (outputMatches "E" "E" (some 3)) ∧
      outputMatches "E" "E" (some 3) = (tsTruthy (some 3) && "E" == "E") :=
  c6_matched_reply_resolution [("1", ResolverEntry.mk "E" false none none)]
    (OutputMsg.mk "1" "E" (some 3)) 5 (ResolverEntry.mk "E" false none none)
    (by rfl) (by rfl)

/-! ## Verdict aggregation (`audit` and `returnAuditResult`, AuditorClient) -/

/-- How one submitted test PendingRequest ends: resolved as success
(matched reply, success flag raised), resolved as failure (matched reply,
match test false), promise rejected by its own timeout, or promise rejected
when the submission acknowledgment signalled rejection. -/
inductive Outcome where
  | success
  | failure
  | timeout
  | ackRejected
deriving DecidableEq, Repr

/-- Whether the outcome left the entry `success` flag true (only a
successful match does; `success` starts false and is raised only in
`handleOutput` match branch). -/
def outcomeSuccess : Outcome → Bool
  | .success => true
  | _ => false

/-- Whether the outcome rejected the request promise (a timeout fires
`reject` with the timeout message; a rejected acknowledgment fires
`resolvers[key][id].reject(submission.reason)`), which makes
`Promise.all(promises)` throw. -/
def outcomeRejectsPromise : Outcome → Bool
  | .timeout => true
  | .ackRejected => true
  | _ => false

/-- `returnAuditResult` (AuditorClient): build the two reports and return
true exactly when neither list contains an entry whose `success` flag is
down (`!rr.find(o => !o.success) && !ci.find(o => !o.success)`); here the
lists carry the `success` flags of the `rr` and `ci` resolver maps. -/
def returnAuditResult (rr ci : List Bool) : Bool :=
  (rr.find? (fun s => !s)).isNone && (ci.find? (fun s => !s)).isNone

/-- The tail of `audit` (AuditorClient): `await Promise.all(promises)`
throws if any request promise was rejected (timeout or rejected
acknowledgment), and the catch converts that to a `false` verdict; otherwise
the verdict is `returnAuditResult` over the resolver maps `success`
flags. -/
def auditVerdict (rr ci : List Outcome) : Bool :=
  if (rr ++ ci).any outcomeRejectsPromise then false
  else returnAuditResult (rr.map outcomeSuccess) (ci.map outcomeSuccess)

/-- An outcome is a success exactly when it is the `success` constructor. -/
theorem outcomeSuccess_eq_true (o : Outcome) : outcomeSuccess o = true ↔ o = .success := by
  cases o <;> simp [outcomeSuccess]

/-- C5: the final verdict is pass if and only if every submitted test — in
both the read-request and the contract-input batches — resolved as success;
a failure, a timeout, or a rejection at acknowledgment anywhere makes the
verdict fail. -/
theorem c5_verdict_iff_all_success (rr ci : List Outcome) :
    auditVerdict rr ci = true
      ↔ ((∀ o ∈ rr, o = Outcome.success) ∧ (∀ o ∈ ci, o = Outcome.success)) := by
  unfold auditVerdict
  by_cases hrej : (rr ++ ci).any outcomeRejectsPromise
  · rw [if_pos hrej]
    obtain ⟨o, ho, hro⟩ := List.any_eq_true.mp hrej
    constructor
    · intro hfalse
      exact absurd hfalse (by simp)
    · intro ⟨h1, h2⟩
      have : o = Outcome.success := by
        rcases List.mem_append.mp ho with hmem | hmem
        · exact h1 o hmem
        · exact h2 o hmem
      rw [this] at hro
      simp [outcomeRejectsPromise] at hro
  · rw [if_neg hrej]
    unfold returnAuditResult
    rw [Bool.and_eq_true, Option.isNone_iff_eq_none, Option.isNone_iff_eq_none,
      List.find?_eq_none, List.find?_eq_none]
    constructor
    · intro ⟨h1, h2⟩
      constructor
      · intro o ho
        have := h1 (outcomeSuccess o) (List.mem_map_of_mem _ ho)
        rw [← outcomeSuccess_eq_true]
        simpa using this
      · intro o ho
        have := h2 (outcomeSuccess o) (List.mem_map_of_mem _ ho)
        rw [← outcomeSuccess_eq_true]
        simpa using this
    · intro ⟨h1, h2⟩
      constructor
      · intro b hb
        obtain ⟨o, ho, hbo⟩ := List.mem_map.mp hb
        rw [← hbo, (outcomeSuccess_eq_true o).mpr (h1 o ho)]
        simp
      · intro b hb
        obtain ⟨o, ho, hbo⟩ := List.mem_map.mp hb
        rw [← hbo, (outcomeSuccess_eq_true o).mpr (h2 o ho)]
        simp

/-! ## Per-request timeouts (`handleInput` and `audit`, AuditorClient) -/

/-- A reply as it reaches `handleOutput`: its arrival time, payload, and the
optional `ts` field. -/
structure Reply where
  time : Nat
  output : String
  ts : Option Nat
deriving DecidableEq, Repr

/-- One submitted test PendingRequest as `handleInput` registers it: the
registration time (`inTime`), the expected output, whether the submission
acknowledgment accepted it (read requests have no acknowledgment step and
count as accepted), and the reply eventually routed to it, if any. -/
structure PendingReq where
  inTime : Nat
  expectedOutput : String
  ackAccepted : Bool
  reply : Option Reply
deriving DecidableEq, Repr

/-- Whether a reply arrived before the request own deadline: `handleInput`
arms one `setTimeout(auditTimeout)` per request at registration, so the
deadline is `inTime + auditTimeout`, not a global one. -/
def repliedBeforeDeadline (auditTimeout : Nat) (r : PendingReq) : Bool :=
  match r.reply with
  | some rep => rep.time < r.inTime + auditTimeout
  | none => false

/-- How one PendingRequest ends (`handleInput` registration combined with
`handleOutput` resolution and the per-request timer): a rejected
acknowledgment rejects it at once; a reply before its own deadline resolves
it by the `handleOutput` match test; otherwise its timer rejects it. -/
def resolveRequest (auditTimeout : Nat) (r : PendingReq) : Outcome :=
  if r.ackAccepted = false then .ackRejected
  else
    match r.reply with
    | some rep =>
      if rep.time < r.inTime + auditTimeout then
        if outputMatches r.expectedOutput rep.output rep.ts then .success else .failure
      else .timeout
    | none => .timeout

/-- Outcomes of a whole batch of submitted tests: each PendingRequest is
settled from its own registration data alone. -/
def runBatch (auditTimeout : Nat) (reqs : List PendingReq) : List Outcome :=
  reqs.map (resolveRequest auditTimeout)

/-- C7: a PendingRequest with no reply before its own deadline times out,
the verdict then treats the batch as failed (whatever the sibling batch
did), and sibling results are untouched: the outcome at every position
depends only on the request registered at that position, so replacing the
siblings arbitrarily — including by ones that time out — leaves it
unchanged. -/
theorem c7_independent_timeouts (auditTimeout : Nat) (reqs : List PendingReq)
    (i : Nat) (r : PendingReq) (hi : reqs[i]? = some r)
    (hack : r.ackAccepted = true)
    (hlate : repliedBeforeDeadline auditTimeout r = false) :
    (runBatch auditTimeout reqs)[i]? = some Outcome.timeout ∧
    (∀ rr : List Outcome, auditVerdict rr (runBatch auditTimeout reqs) = false) ∧
    (∀ (reqs2 : List PendingReq) (j : Nat), reqs[j]? = reqs2[j]? →
      (runBatch auditTimeout reqs)[j]? = (runBatch auditTimeout reqs2)[j]?) := by
  have hres : resolveRequest auditTimeout r = Outcome.timeout := by
    unfold resolveRequest
    rw [if_neg (by simp [hack])]
    cases hrep : r.reply with
    | none => rfl
    | some rep =>
      have : (rep.time < r.inTime + auditTimeout) = False := by
        simp only [repliedBeforeDeadline, hrep, decide_eq_false_iff_not] at hlate
        simp [hlate]
      simp [this]
  have hout : (runBatch auditTimeout reqs)[i]? = some Outcome.timeout := by
    unfold runBatch
    rw [List.getElem?_map, hi, Option.map_some', hres]
  refine ⟨hout, ?_, ?_⟩
  · intro rr
    have hmem : Outcome.timeout ∈ runBatch auditTimeout reqs :=
      List.getElem?_mem hout
    unfold auditVerdict
    rw [if_pos ?_]
    exact List.any_eq_true.mpr
      ⟨Outcome.timeout, List.mem_append_right rr hmem, rfl⟩
  · intro reqs2 j hj
    unfold runBatch
    rw [List.getElem?_map, List.getElem?_map, hj]

/-- C7 witness: a single contract-input request registered at time 0 with a
5000ms timeout and no reply: its outcome is timeout, the verdict fails, and
the (empty set of) siblings is untouched. -/
theorem c7_independent_timeouts_witness :
    (runBatch 5000 [PendingReq.mk 0 "E" true none])[0]? = some Outcome.timeout ∧
    (∀ rr : List Outcome,
      auditVerdict rr (runBatch 5000 [PendingReq.mk 0 "E" true none]) = false) ∧
    (∀ (reqs2 : List PendingReq) (j : Nat),
      ([PendingReq.mk 0 "E" true none] : List PendingReq)[j]? = reqs2[j]? →
      (runBatch 5000 [PendingReq.mk 0 "E" true none])[j]?
        = (runBatch 5000 reqs2)[j]?) :=
  c7_independent_timeouts 5000 [PendingReq.mk 0 "E" true none] 0
    (PendingReq.mk 0 "E" true none) (by rfl) (by rfl) (by rfl)

end EvernodeAuditor
